import Mathlib

/-!
Verification of the `trust_hardcore` server supervisor (`src/main.rs`).

The development shallowly embeds the pure content of the program:

* the log-line classifier embedded from the body of `run_server`
  (bracket stripping, username extraction, allow-list filtering,
  death / join / leave detection);
* `update_playtime` together with the checkpoint predicate `backup_count`;
* the presence/playtime session state machine of `run_server`;
* the death procedure `on_death` (the dice roll and the penalty verdict);
* the recovery `match` at the end of `run_server` (reset / rewind);
* the pure validation checks of `load_config`.

Machine integers (`u64`) are embedded as `Nat`; `Duration` / `Instant`
are embedded as `Nat` nanosecond counts; Rust panics (`unwrap`,
division by zero) are embedded as `Option.none`; Rust strings are
embedded as `List Char` where we compute with them and as `String`
where they are opaque.
-/

/-- Nanoseconds per second: `Duration` values are embedded as `Nat`
nanosecond counts. -/
def nanos : Nat := 1000000000

/-- Embedded from `enum Penalty` in `src/main.rs`. -/
inductive Penalty where
  | None
  | Rewind
  | Reset
deriving DecidableEq

/-- Embedded from `struct Config` in `src/main.rs`.  Path-valued fields
(`world`, `lang`, `backup_dir`) are opaque strings here; the filesystem
is not modelled.  `checkpoint_minutes : u64` becomes `Nat`,
`roll_range : (i32, i32)` becomes `Int × Int` (the program never
exercises `i32` overflow: `load_config` already requires
`roll_range.0 <= roll_range.1`). -/
structure Config where
  server : List String
  world : String
  lang : String
  ignore_phrases : List (List Char)
  make_backups : Bool
  backup_dir : String
  players : List (List Char)
  allow_all_players : Bool
  on_death_command : Option String
  checkpoint_minutes : Nat
  roll_range : Int × Int
  deadly_rolls : List Int
  bracket_count : Nat

/-- Embedded from `USERNAME_CHARS` in `src/main.rs`. -/
def USERNAME_CHARS : List Char :=
  ("abcdefghijklmnopqrstuvwxyzABCDEFGHIJKLMNOPQRSTUVWXYZ_-0123456789").toList

/-- Embedded from `is_username_char` in `src/main.rs`.  The source builds
a 128-entry byte table from `USERNAME_CHARS` and tests
`(c as u32) < 128 && is_username[c as usize]`; since every entry of the
table that is set corresponds to a character of `USERNAME_CHARS` (all of
which are ASCII), the test is equivalent to membership in that list. -/
def is_username_char (c : Char) : Bool := USERNAME_CHARS.contains c

/-- The literal suffix `" joined the game"` tested in `run_server`. -/
def joined_msg : List Char := (" joined the game").toList

/-- The literal suffix `" left the game"` tested in `run_server`. -/
def left_msg : List Char := (" left the game").toList

/-- One round of the bracket-stripping loop of `run_server`: drop
everything up to and including the first `']'`; `Option.none` embeds the
`continue` taken when no `']'` is found. -/
def strip_bracket : List Char → Option (List Char)
  | [] => Option.none
  | c :: rest => if c = ']' then Option.some rest else strip_bracket rest

/-- The `for _ in 0..config.bracket_count` stripping loop of
`run_server`. -/
def strip_brackets : Nat → List Char → Option (List Char)
  | 0, l => Option.some l
  | n + 1, l => (strip_bracket l).bind (strip_brackets n)

/-- Embedded from the prefix-cleaning block of `run_server`
(lines 369–389): strip `bracket_count` bracketed prefixes, skip to the
first username character, and split the line into the username (maximal
run of username characters) and the message suffix.  `Option.none`
embeds the `continue` paths. -/
def extract (cfg : Config) (line : List Char) : Option (List Char × List Char) :=
  match strip_brackets cfg.bracket_count line with
  | Option.none => Option.none
  | Option.some stripped =>
    let l2 := stripped.dropWhile (fun c => !(is_username_char c))
    if l2.isEmpty then Option.none
    else
      Option.some (l2.takeWhile (fun c => is_username_char c),
        l2.dropWhile (fun c => is_username_char c))

/-- The combined death-detection condition of `run_server` (lines
394–395): the message matches some death template AND does not match any
ignore phrase. -/
def death_fires (cfg : Config) (death_msg : List (List Char)) (msg : List Char) : Bool :=
  (death_msg.any (fun dm => dm.isPrefixOf msg)) &&
    !(cfg.ignore_phrases.any (fun ip => ip.isPrefixOf msg))

/-- The classification outcome of one line of `run_server`'s event
loop; `Ignored` covers every `continue` path and the fall-through. -/
inductive Event where
  | Join (id : List Char)
  | Leave (id : List Char)
  | Death (id : List Char)
  | Ignored
deriving DecidableEq

/-- Embedded from the per-line classification logic of `run_server`
(lines 369–419): prefix cleaning, allow-list filter, then the
death / joined / left tests in source order. -/
def classify (cfg : Config) (death_msg : List (List Char)) (line : List Char) : Event :=
  match extract cfg line with
  | Option.none => Event.Ignored
  | Option.some (username, msg) =>
    if !cfg.allow_all_players && !(cfg.players.contains username) then Event.Ignored
    else if death_fires cfg death_msg msg then Event.Death username
    else if joined_msg.isPrefixOf msg then Event.Join username
    else if left_msg.isPrefixOf msg then Event.Leave username
    else Event.Ignored

/-- Embedded from the `backup_count` closure inside `update_playtime`
(`src/main.rs` line 317): `(playtime.as_secs() + backup_interval - 30) /
backup_interval`, on `u64` values.  For `interval ≥ 60` (the only case
in which `update_playtime` reaches this closure without panicking) the
`u64` subtraction never underflows, so `Nat` subtraction is exact. -/
def backup_count (interval secs : Nat) : Nat := (secs + interval - 30) / interval

/-- Modelled from the spec: the checkpoint predicate's bucket function,
`bucket(t) = floor((t + interval - margin) / interval)` with
`margin = 30`s, written from the spec's words to be compared with the
source-derived `backup_count`. -/
def bucketSpec (interval t : Nat) : Nat := (t + interval - 30) / interval

/-- Embedded from `update_playtime` in `src/main.rs` (lines 298–325).
`since`/`now` are `Instant`s as nanosecond counts, `playtime` a
`Duration` in nanoseconds.  Returns `(players_online_since',
playtime', checkpoint_due)`; the outer `Option.none` embeds the `u64`
panic (division by zero / underflow in `backup_count`) reached exactly
when `checkpoint_minutes * 60 = 0`.  `save_playtime` I/O is elided. -/
def update_playtime (cfg : Config) (since : Option Nat) (now : Nat) (playtime : Nat) :
    Option (Option Nat × Nat × Bool) :=
  match since with
  | Option.none => Option.some (Option.none, playtime, false)
  | Option.some t0 =>
    let adv := now - t0
    if 8 * nanos < adv then
      let old := playtime
      let pt := playtime + adv
      let interval := cfg.checkpoint_minutes * 60
      if interval = 0 then
        Option.none
      else
        Option.some (Option.some now, pt,
          decide (backup_count interval (pt / nanos) > backup_count interval (old / nanos)))
    else
      Option.some (Option.some t0, playtime, false)

/-- The presence / playtime state of `run_server`'s event loop:
`online_players`, `players_online_since` and `playtime`. -/
structure SessState where
  online : Finset (List Char)
  since : Option Nat
  playtime : Nat
deriving DecidableEq

/-- Embedded from the `Join`/`Leave` arms of `run_server`'s event loop
(lines 403–419): on join, start counting time if the online set was
empty, then insert; on leave, remove, then stop counting time if the
set became empty.  All other events leave the presence state
unchanged. -/
def presence_step (ev : Event) (now : Nat) (s : SessState) : SessState :=
  match ev with
  | Event.Join id =>
    let s1 := if s.online = ∅ then { s with since := Option.some now } else s
    { s1 with online := insert id s1.online }
  | Event.Leave id =>
    let online2 := s.online.erase id
    { s with online := online2,
             since := if online2 = ∅ then Option.none else s.since }
  | _ => s

/-- One iteration of `run_server`'s event loop as far as the session
state is concerned: `update_playtime` on every received line, then the
classification-driven presence update.  `Option.none` embeds the
division-by-zero panic propagated from `update_playtime`; the
checkpoint flag is irrelevant to the session state (a backup mutates
only the filesystem). -/
def line_step (cfg : Config) (death_msg : List (List Char)) (now : Nat)
    (line : List Char) (s : SessState) : Option SessState :=
  match update_playtime cfg s.since now s.playtime with
  | Option.none => Option.none
  | Option.some (since2, pt2, _due) =>
    Option.some (presence_step (classify cfg death_msg line) now
      { online := s.online, since := since2, playtime := pt2 })

/-- The session state at the start of `run_server`: empty online set,
no online-since timestamp, loaded playtime `p0`. -/
def init_state (p0 : Nat) : SessState :=
  { online := ∅, since := Option.none, playtime := p0 }

/-- Folding `line_step` over a trace of `(now, line)` pairs. -/
def runTrace (cfg : Config) (death_msg : List (List Char)) :
    List (Nat × List Char) → SessState → Option SessState
  | [], s => Option.some s
  | (now, line) :: rest, s =>
    (line_step cfg death_msg now line s).bind (runTrace cfg death_msg rest)

/-- The PresenceState invariant: the online-since timestamp is set iff
the online set is non-empty. -/
def sessInv (s : SessState) : Prop := (s.since.isSome = true ↔ s.online ≠ ∅)

instance (s : SessState) : Decidable (sessInv s) := by
  unfold sessInv; infer_instance

/-- Modelled from the spec: `rand::thread_rng().gen_range(lo, hi)` of the
external `rand` crate (rand 0.7 API: a uniformly distributed integer in
the half-open range `[lo, hi)`).  The `seed` abstracts the RNG state:
the result is `lo + (seed mod (hi - lo))`, which ranges over exactly
`[lo, hi)` as `seed` ranges over `Nat`. -/
def gen_range (lo hi : Int) (seed : Nat) : Int :=
  lo + ((seed % (hi - lo).toNat : Nat) : Int)

/-- The chat lines `on_death` pushes onto the CommandSink (in order),
given the rolled number `num`: the optional on-death command with
`{username}` substituted, the death announcement, the roll
announcements, and the flavor line on a deadly roll. -/
def on_death_sends (cfg : Config) (username : String) (num : Int) : List String :=
  (match cfg.on_death_command with
   | Option.some c => [String.replace c ("{username}") username]
   | Option.none => []) ++
  [("say ") ++ username ++ (" died"), ("say Rolling dice...")] ++
  [("say Rolled ") ++ toString num] ++
  (if cfg.deadly_rolls.contains num then [("say Always lucky boii")] else [])

/-- Embedded from `on_death` in `src/main.rs` (lines 203–235).  Every
send goes through `input.send(msg).unwrap()`: when the channel is
closed (`channel_open = false`) the very first send panics, embedded as
`Option.none`.  Otherwise the procedure rolls
`gen_range(roll_range.0, roll_range.1 + 1)` and returns
`Penalty::Reset` iff the roll is a member of `deadly_rolls`, else
`Penalty::None`, together with the lines sent.  Sleeps are elided. -/
def on_death (cfg : Config) (username : String) (channel_open : Bool) (seed : Nat) :
    Option (Penalty × List String) :=
  if !channel_open then Option.none
  else
    let num := gen_range cfg.roll_range.1 (cfg.roll_range.2 + 1) seed
    Option.some
      ((if cfg.deadly_rolls.contains num then Penalty.Reset else Penalty.None),
        on_death_sends cfg username num)

/-- Embedded from `make_backup` in `src/main.rs` (lines 272–296),
restricted to its CommandSink interaction: all four sends go through
`input.send(..).unwrap()`, so a closed channel panics (`Option.none`);
with an open channel the sends succeed in order.  Filesystem copying is
elided. -/
def make_backup_model (channel_open : Bool) : Option (List String) :=
  if channel_open then
    Option.some [("save-all"), ("save-off"), ("save-on"), ("say Checkpoint!")]
  else Option.none

/-- Embedded from `read_pipe` in `src/main.rs` (lines 67–80): the
reader thread forwards lines until a send fails (channel closed after
`closes_at` sends), at which point it `break`s — it always terminates
normally, never panics, so the result is always `Option.some`. -/
def read_pipe_model (closes_at : Nat) (lines : List String) : Option (List String) :=
  Option.some (lines.take closes_at)

/-- The observable effect of the recovery `match` at the end of
`run_server` (lines 425–476). -/
structure RecoveryOutcome where
  stops_server : Bool
  deletes_world : Bool
  restores_from_backup : Bool
  deletes_backup : Bool
  sends : List String
  restart : Bool
deriving DecidableEq

/-- The `_` arm of the recovery `match` (reset): announce, stop, delete
the world, delete the backup if present, restart. -/
def reset_outcome (backup_exists : Bool) : RecoveryOutcome :=
  { stops_server := true, deletes_world := true, restores_from_backup := false,
    deletes_backup := backup_exists,
    sends := [("say Destroying world..."), ("stop")], restart := true }

/-- Embedded from the recovery `match` at the end of `run_server`
(lines 425–476): `Penalty::None` stops without touching the world;
`Penalty::Rewind` with an existing backup restores it; everything else
(Reset, or Rewind without a backup) takes the `_` reset arm.  The
returned `restart` is the `Ok(..)` value of `run_server`, consumed by
the `while run_server(..)?` loop of `run`. -/
def recovery (p : Penalty) (backup_exists : Bool) : RecoveryOutcome :=
  match p with
  | Penalty.None =>
    { stops_server := false, deletes_world := false, restores_from_backup := false,
      deletes_backup := false, sends := [], restart := false }
  | Penalty.Rewind =>
    if backup_exists then
      { stops_server := true, deletes_world := true, restores_from_backup := true,
        deletes_backup := false,
        sends := [("say Winding back..."), ("stop")], restart := true }
    else reset_outcome backup_exists
  | Penalty.Reset => reset_outcome backup_exists

/-- The `penalty` variable of `run_server`'s event loop as a function of
the successive `on_death` verdicts: each death event overwrites it, and
the loop `break`s at the first non-`None` verdict (a server exit simply
truncates the list). -/
def finalPenalty : List Penalty → Penalty
  | [] => Penalty.None
  | p :: rest =>
    match p with
    | Penalty.None => finalPenalty rest
    | q => q

/-- Embedded from the pure `ensure!` validation checks of `load_config`
(`src/main.rs` lines 82–116): the two filesystem facts (world absent or
a directory; backup directory exists and is a directory) are abstracted
as booleans, and the only arithmetic check is
`roll_range.0 <= roll_range.1`.  Out-of-range deadly rolls only warn.
No check constrains `checkpoint_minutes`. -/
def load_config_checks (world_ok backup_ok : Bool) (c : Config) : Bool :=
  world_ok && backup_ok && decide (c.roll_range.1 ≤ c.roll_range.2)

/-- A representative concrete configuration (one bracketed prefix, all
players allowed, a 10-minute checkpoint interval, dice range `[1, 6]`
with `1` deadly), used to instantiate the theorems below. -/
def baseCfg : Config :=
  { server := [], world := "w", lang := "l", ignore_phrases := [],
    make_backups := false, backup_dir := "b", players := [],
    allow_all_players := true, on_death_command := Option.none,
    checkpoint_minutes := 10, roll_range := (1, 6), deadly_rolls := [1],
    bracket_count := 1 }

/-- Variant of `baseCfg` with `" joined the game"` as a configured ignore-phrase
(used to exercise the ignore-phrase priority rule). -/
def cfg2 : Config := { baseCfg with ignore_phrases := [joined_msg] }

/-- Variant of `baseCfg` with `checkpoint_minutes = 0` (admitted by the `u64`
field and unconstrained by `load_config`). -/
def cfg10 : Config := { baseCfg with checkpoint_minutes := 0 }

/-- The suffix `joined_msg` as an explicit character list. -/
theorem joined_msg_chars :
    joined_msg = [' ', 'j', 'o', 'i', 'n', 'e', 'd', ' ', 't', 'h', 'e', ' ', 'g', 'a', 'm', 'e'] := by
  decide

/-- The suffix `left_msg` as an explicit character list. -/
theorem left_msg_chars :
    left_msg = [' ', 'l', 'e', 'f', 't', ' ', 't', 'h', 'e', ' ', 'g', 'a', 'm', 'e'] := by
  decide

/-- A message suffix starting with `" left the game"` cannot also start
with `" joined the game"` (they differ at the second character). -/
theorem left_not_joined (msg : List Char) (h : (left_msg.isPrefixOf msg) = true) :
    (joined_msg.isPrefixOf msg) = false := by
  rw [left_msg_chars] at h
  rw [joined_msg_chars]
  match msg with
  | [] => simp [List.isPrefixOf] at h
  | [c0] => simp [List.isPrefixOf] at h
  | c0 :: c1 :: rest =>
    simp only [List.isPrefixOf, Bool.and_eq_true, beq_iff_eq] at h
    obtain ⟨h0, h1, -⟩ := h
    subst h0; subst h1
    have hjl : (('j' == 'l') : Bool) = false := by decide
    simp [List.isPrefixOf, hjl]

/-- When the advance guard fires and the interval is positive,
`update_playtime` advances playtime by `now - t0`, resets the
online-since timestamp to `now`, and reports a checkpoint exactly when
the `backup_count` bucket increased. -/
theorem update_playtime_adv (cfg : Config) (t0 now pt : Nat)
    (hcm : cfg.checkpoint_minutes ≠ 0) (hadv : 8 * nanos < now - t0) :
    update_playtime cfg (Option.some t0) now pt
      = Option.some (Option.some now, pt + (now - t0),
          decide (backup_count (cfg.checkpoint_minutes * 60) ((pt + (now - t0)) / nanos)
            > backup_count (cfg.checkpoint_minutes * 60) (pt / nanos))) := by
  have hint : cfg.checkpoint_minutes * 60 ≠ 0 := by
    intro h; exact hcm (by omega)
  simp only [update_playtime, if_pos hadv, if_neg hint]

/-- When the advance guard does not fire, `update_playtime` changes
nothing and reports no checkpoint. -/
theorem update_playtime_noadv (cfg : Config) (t0 now pt : Nat)
    (hadv : ¬ (8 * nanos < now - t0)) :
    update_playtime cfg (Option.some t0) now pt
      = Option.some (Option.some t0, pt, false) := by
  simp only [update_playtime, if_neg hadv]

/-- The function `update_playtime` never changes whether the online-since timestamp
is set. -/
theorem update_playtime_isSome (cfg : Config) (since : Option Nat) (now pt : Nat)
    (s2 : Option Nat) (p2 : Nat) (d : Bool)
    (h : update_playtime cfg since now pt = Option.some (s2, p2, d)) :
    s2.isSome = since.isSome := by
  cases since with
  | none =>
    simp only [update_playtime, Option.some.injEq, Prod.mk.injEq] at h
    rw [← h.1]
  | some t0 =>
    by_cases hadv : 8 * nanos < now - t0
    · by_cases hcm : cfg.checkpoint_minutes = 0
      · simp only [update_playtime, if_pos hadv] at h
        rw [if_pos (by rw [hcm])] at h
        exact absurd h (by simp)
      · rw [update_playtime_adv cfg t0 now pt hcm hadv] at h
        simp only [Option.some.injEq, Prod.mk.injEq] at h
        rw [← h.1]
        rfl
    · rw [update_playtime_noadv cfg t0 now pt hadv] at h
      simp only [Option.some.injEq, Prod.mk.injEq] at h
      rw [← h.1]

/-- The function `update_playtime` leaves playtime unchanged when the online-since
timestamp is unset. -/
theorem update_playtime_offline (cfg : Config) (now pt : Nat) :
    update_playtime cfg Option.none now pt = Option.some (Option.none, pt, false) := by
  rfl

/-- The function `presence_step` never touches the playtime component. -/
theorem presence_step_playtime (ev : Event) (now : Nat) (s : SessState) :
    (presence_step ev now s).playtime = s.playtime := by
  cases ev with
  | Join id =>
    by_cases h : s.online = ∅ <;> simp [presence_step, h]
  | Leave id => rfl
  | Death id => rfl
  | Ignored => rfl

/-- The function `presence_step` preserves the presence invariant. -/
theorem presence_step_inv (ev : Event) (now : Nat) (s : SessState)
    (hs : sessInv s) : sessInv (presence_step ev now s) := by
  cases ev with
  | Join id =>
    by_cases h : s.online = ∅
    · simp only [presence_step, if_pos h, sessInv]
      simp [Finset.insert_ne_empty]
    · simp only [presence_step, if_neg h, sessInv]
      simp only [sessInv] at hs
      simp [Finset.insert_ne_empty, hs.mpr h]
  | Leave id =>
    simp only [presence_step, sessInv]
    by_cases h : s.online.erase id = ∅
    · simp [h]
    · simp only [if_neg h]
      simp only [sessInv] at hs
      have hne : s.online ≠ ∅ := by
        intro h0
        exact h (by rw [h0]; exact Finset.erase_empty id)
      simp [h, hs.mpr hne]
  | Death id => exact hs
  | Ignored => exact hs

/-- The function `line_step` preserves the presence invariant. -/
theorem line_step_inv (cfg : Config) (death_msg : List (List Char)) (now : Nat)
    (line : List Char) (s s2 : SessState) (hs : sessInv s)
    (h : line_step cfg death_msg now line s = Option.some s2) :
    sessInv s2 := by
  unfold line_step at h
  cases hupd : update_playtime cfg s.since now s.playtime with
  | none => rw [hupd] at h; exact absurd h (by simp)
  | some triple =>
    obtain ⟨since2, pt2, due⟩ := triple
    rw [hupd] at h
    simp only [Option.some.injEq] at h
    have h1 : sessInv { online := s.online, since := since2, playtime := pt2 } := by
      simp only [sessInv]
      rw [update_playtime_isSome cfg s.since now s.playtime since2 pt2 due hupd]
      exact hs
    rw [← h]
    exact presence_step_inv _ now _ h1

/-- The function `runTrace` preserves the presence invariant. -/
theorem runTrace_inv (cfg : Config) (death_msg : List (List Char))
    (trace : List (Nat × List Char)) (s s2 : SessState) (hs : sessInv s)
    (h : runTrace cfg death_msg trace s = Option.some s2) :
    sessInv s2 := by
  induction trace generalizing s with
  | nil =>
    simp only [runTrace, Option.some.injEq] at h
    rw [← h]; exact hs
  | cons hd tl ih =>
    obtain ⟨now, line⟩ := hd
    simp only [runTrace] at h
    cases hstep : line_step cfg death_msg now line s with
    | none => rw [hstep] at h; exact absurd h (by simp)
    | some s1 =>
      rw [hstep] at h
      simp only [Option.some_bind] at h
      exact ih s1 (line_step_inv cfg death_msg now line s s1 hs hstep) h

/-- C4 counterexample: with a 10-minute interval, the code's bucket
function gives `bucket(550) = (550 + 600 - 30) / 600 = 1`, not `0`, and
`bucket(601) = 1`, so the advance from 550s to 601s reports *no*
checkpoint; the claim's `bucket(550) = 0 → checkpoint due` is false at
this concrete input. -/
theorem C4_counterexample :
    ¬ (bucketSpec 600 550 = 0 ∧ bucketSpec 600 601 = 1 ∧
       update_playtime baseCfg (Option.some 0) (51 * nanos) (550 * nanos)
         = Option.some (Option.some (51 * nanos), 601 * nanos, true)) := by
  decide

/-- Claim C4 (amended): with a 10-minute checkpoint interval
(`interval = 600`s), a playtime advance from 550s to 601s gives
`bucket(550) = 1` and `bucket(601) = 1`, so no checkpoint is due. -/
theorem C4_bucket_550_601 :
    bucketSpec 600 550 = 1 ∧ bucketSpec 600 601 = 1 ∧
    update_playtime baseCfg (Option.some 0) (51 * nanos) (550 * nanos)
      = Option.some (Option.some (51 * nanos), 601 * nanos, false) := by
  decide

/-- Claim C6: `Penalty::Rewind` with no existing backup takes the `_`
(reset) arm of the recovery match — identical observable outcome to
`Penalty::Reset`: the server is stopped, the world directory is
deleted, no restore from backup is attempted, and restart is
signalled. -/
theorem C6_rewind_without_backup :
    recovery Penalty.Rewind false = recovery Penalty.Reset false ∧
    (recovery Penalty.Rewind false).stops_server = true ∧
    (recovery Penalty.Rewind false).deletes_world = true ∧
    (recovery Penalty.Rewind false).restores_from_backup = false ∧
    (recovery Penalty.Rewind false).deletes_backup = false ∧
    (recovery Penalty.Rewind false).restart = true := by
  decide

/-- Claim C7: a session signals restart iff its final penalty is
`Reset` or `Rewind`; if every death verdict of the session was `None`
(in particular if there was no death at all and the process exited on
its own), the pending penalty is `None` and the session does not
restart, terminating the outer `while run_server(..)?` loop. -/
theorem C7_restart_iff (p : Penalty) (backup_exists : Bool)
    (outs : List Penalty) (hnone : ∀ o ∈ outs, o = Penalty.None) :
    ((recovery p backup_exists).restart = true ↔ (p = Penalty.Reset ∨ p = Penalty.Rewind)) ∧
    finalPenalty outs = Penalty.None ∧
    (recovery (finalPenalty outs) backup_exists).restart = false := by
  refine ⟨?_, ?_, ?_⟩
  · cases p <;> cases backup_exists <;> simp [recovery, reset_outcome]
  · induction outs with
    | nil => rfl
    | cons hd tl ih =>
      have hh : hd = Penalty.None := hnone hd (List.mem_cons_self hd tl)
      subst hh
      exact ih (fun o ho => hnone o (List.mem_cons_of_mem _ ho))
  · have hfp : finalPenalty outs = Penalty.None := by
      induction outs with
      | nil => rfl
      | cons hd tl ih =>
        have hh : hd = Penalty.None := hnone hd (List.mem_cons_self hd tl)
        subst hh
        exact ih (fun o ho => hnone o (List.mem_cons_of_mem _ ho))
    rw [hfp]
    rfl

/-- C7 witness: concrete instantiation of `C7_restart_iff` at
`Penalty.Reset`, an existing backup, and an empty verdict list. -/
theorem C7_witness :
    ((recovery Penalty.Reset true).restart = true
      ↔ (Penalty.Reset = Penalty.Reset ∨ Penalty.Reset = Penalty.Rewind)) ∧
    finalPenalty [] = Penalty.None ∧
    (recovery (finalPenalty []) true).restart = false :=
  C7_restart_iff Penalty.Reset true [] (by simp)

/-- C9 counterexample: with the command channel closed, the first
`input.send(..).unwrap()` of `on_death` panics (`Option.none`), and so
does the first send of `make_backup` — the send failure aborts the
program instead of being ignored, refuting the fire-and-forget claim
for these call sites. -/
theorem C9_counterexample :
    on_death baseCfg ("Steve") false 0 = Option.none ∧
    make_backup_model false = Option.none := by
  decide

/-- Claim C9 (amended): send failures on the CommandSink are ignored
only by the background pipe-reader threads (which stop forwarding and
terminate normally); the death procedure and the backup path call
`unwrap` on every send, so with a closed channel they panic instead of
continuing, while with an open channel every send is a fire-and-forget
success. -/
theorem C9_send_failure :
    (∀ (cfg : Config) (u : String) (seed : Nat),
       on_death cfg u false seed = Option.none) ∧
    make_backup_model false = Option.none ∧
    (∀ (closes_at : Nat) (lines : List String),
       read_pipe_model closes_at lines = Option.some (lines.take closes_at)) ∧
    (∀ (cfg : Config) (u : String) (seed : Nat),
       ∃ r, on_death cfg u true seed = Option.some r) := by
  refine ⟨fun cfg u seed => rfl, rfl, fun c l => rfl, fun cfg u seed => ⟨_, rfl⟩⟩

/-- Claim C10: `Config` admits `checkpoint_minutes = 0`, the
`load_config` checks do not constrain it, and with it the first
playtime advance divides by zero in `backup_count` (a panic, embedded
as `Option.none`); with `checkpoint_minutes ≥ 1` the division is always
safe. -/
theorem C10_checkpoint_minutes_zero :
    cfg10.checkpoint_minutes = 0 ∧
    load_config_checks true true cfg10 = true ∧
    update_playtime cfg10 (Option.some 0) (9 * nanos) 0 = Option.none ∧
    (∀ (cfg : Config) (t0 now pt : Nat), 1 ≤ cfg.checkpoint_minutes →
       update_playtime cfg (Option.some t0) now pt ≠ Option.none) := by
  refine ⟨rfl, by decide, by decide, ?_⟩
  intro cfg t0 now pt hcm
  by_cases hadv : 8 * nanos < now - t0
  · rw [update_playtime_adv cfg t0 now pt (by omega) hadv]
    simp
  · rw [update_playtime_noadv cfg t0 now pt hadv]
    simp

/-- C10 witness: the safety half of `C10_checkpoint_minutes_zero`
instantiated at `baseCfg` (`checkpoint_minutes = 10`). -/
theorem C10_witness :
    update_playtime baseCfg (Option.some 0) (9 * nanos) 0 ≠ Option.none :=
  C10_checkpoint_minutes_zero.2.2.2 baseCfg 0 (9 * nanos) 0 (by decide)

/-- C2 counterexample: with `" joined the game"` configured both as an
ignore-phrase and as a death template, the line
`"[INFO] Steve joined the game"` has a message suffix starting with the
ignore-phrase (and with the death template), yet classification yields
`Join("Steve")`, not `Ignored` — the ignore-phrase only suppresses the
death test and the line falls through to the join test. -/
theorem C2_counterexample :
    extract cfg2 (("[INFO] Steve joined the game").toList)
      = Option.some ((("Steve").toList), joined_msg) ∧
    (cfg2.ignore_phrases.any (fun ip => ip.isPrefixOf joined_msg)) = true ∧
    ([joined_msg].any (fun dm => dm.isPrefixOf joined_msg)) = true ∧
    classify cfg2 [joined_msg] (("[INFO] Steve joined the game").toList)
      = Event.Join (("Steve").toList) := by
  decide

/-- Claim C2 (amended): when the extracted message suffix starts with a
configured ignore-phrase, the death-detection condition is suppressed,
so classification never yields a `Death` event for that line (the later
join/leave steps may still classify it as `Join` or `Leave`). -/
theorem C2_ignore_suppresses_death (cfg : Config) (death_msg : List (List Char))
    (line u msg : List Char)
    (hex : extract cfg line = Option.some (u, msg))
    (hig : (cfg.ignore_phrases.any (fun ip => ip.isPrefixOf msg)) = true) :
    ∀ id, classify cfg death_msg line ≠ Event.Death id := by
  intro id
  have hdf : death_fires cfg death_msg msg = false := by
    unfold death_fires
    rw [hig]
    simp
  cases hA : (!cfg.allow_all_players && !(cfg.players.contains u)) <;>
  cases hJ : joined_msg.isPrefixOf msg <;>
  cases hL : left_msg.isPrefixOf msg <;>
    (simp [classify, hex, hdf, hA, hJ, hL] <;> (split <;> simp))

/-- C2 witness: concrete instantiation of `C2_ignore_suppresses_death`
at the `cfg2` ignore-phrase configuration. -/
theorem C2_witness :
    classify cfg2 [joined_msg] (("[INFO] Steve joined the game").toList)
      ≠ Event.Death (("Steve").toList) :=
  C2_ignore_suppresses_death cfg2 [joined_msg]
    (("[INFO] Steve joined the game").toList) (("Steve").toList) joined_msg
    (by decide) (by decide) (("Steve").toList)

/-- C8 counterexample: if the lang file yields `" joined the game"`
itself as a death template (it consists only of letters and spaces, so
`parse_lang` can produce it), the line `"[INFO] Steve joined the game"`
survives bracket stripping with allowed identifier `"Steve"` and a
suffix starting with `" joined the game"`, yet classifies as
`Death("Steve")`, not `Join("Steve")`: the death test precedes the
join test. -/
theorem C8_counterexample :
    extract baseCfg (("[INFO] Steve joined the game").toList)
      = Option.some ((("Steve").toList), joined_msg) ∧
    (joined_msg.isPrefixOf joined_msg) = true ∧
    classify baseCfg [joined_msg] (("[INFO] Steve joined the game").toList)
      = Event.Death (("Steve").toList) := by
  decide

/-- Claim C8 (amended): for every line that survives bracket stripping
and yields an allowed identifier, *provided the death-detection step
does not fire*, a suffix starting with `" joined the game"` classifies
as `Join(identifier)` and one starting with `" left the game"` as
`Leave(identifier)`; in particular, with `bracket_count = 1` and the
death template `"was slain by"`, the line
`"[INFO] Steve joined the game"` classifies as `Join("Steve")`. -/
theorem C8_join_leave (cfg : Config) (death_msg : List (List Char))
    (line u msg : List Char)
    (hex : extract cfg line = Option.some (u, msg))
    (hallow : (!cfg.allow_all_players && !(cfg.players.contains u)) = false)
    (hdf : death_fires cfg death_msg msg = false) :
    ((joined_msg.isPrefixOf msg) = true → classify cfg death_msg line = Event.Join u) ∧
    ((left_msg.isPrefixOf msg) = true → classify cfg death_msg line = Event.Leave u) ∧
    classify baseCfg [(("was slain by").toList)] (("[INFO] Steve joined the game").toList)
      = Event.Join (("Steve").toList) := by
  refine ⟨?_, ?_, by decide⟩
  · intro hj
    simp only [classify, hex, hallow, hdf, hj]
    simp
  · intro hl
    simp only [classify, hex, hallow, hdf, hl, left_not_joined msg hl]
    simp

/-- C8 witness: concrete instantiation of `C8_join_leave` at `baseCfg`
and the line `"[INFO] Steve left the game"`. -/
theorem C8_witness :
    ((joined_msg.isPrefixOf left_msg) = true →
      classify baseCfg [] (("[INFO] Steve left the game").toList)
        = Event.Join (("Steve").toList)) ∧
    ((left_msg.isPrefixOf left_msg) = true →
      classify baseCfg [] (("[INFO] Steve left the game").toList)
        = Event.Leave (("Steve").toList)) ∧
    classify baseCfg [(("was slain by").toList)] (("[INFO] Steve joined the game").toList)
      = Event.Join (("Steve").toList) :=
  C8_join_leave baseCfg [] (("[INFO] Steve left the game").toList)
    (("Steve").toList) left_msg (by decide) (by decide) (by decide)

/-- Claim C1: with `roll_range = [lo, hi]` and `lo ≤ hi`, the death
procedure's roll `gen_range(lo, hi + 1)` always lies in the inclusive
range `[lo, hi]`, every value of that range is attained by some RNG
state, and the verdict is `Reset` iff the roll is a member of
`deadly_rolls` and `None` otherwise — `Rewind` is never produced. -/
theorem C1_on_death_roll (cfg : Config) (u : String) (seed : Nat)
    (h : cfg.roll_range.1 ≤ cfg.roll_range.2) :
    cfg.roll_range.1 ≤ gen_range cfg.roll_range.1 (cfg.roll_range.2 + 1) seed ∧
    gen_range cfg.roll_range.1 (cfg.roll_range.2 + 1) seed ≤ cfg.roll_range.2 ∧
    (∀ n : Int, cfg.roll_range.1 ≤ n → n ≤ cfg.roll_range.2 →
       ∃ s : Nat, gen_range cfg.roll_range.1 (cfg.roll_range.2 + 1) s = n) ∧
    on_death cfg u true seed
      = Option.some
          ((if cfg.deadly_rolls.contains (gen_range cfg.roll_range.1 (cfg.roll_range.2 + 1) seed)
            then Penalty.Reset else Penalty.None),
           on_death_sends cfg u (gen_range cfg.roll_range.1 (cfg.roll_range.2 + 1) seed)) ∧
    (∀ (p : Penalty) (sends : List String),
       on_death cfg u true seed = Option.some (p, sends) → p ≠ Penalty.Rewind) := by
  have hk : 0 < (cfg.roll_range.2 + 1 - cfg.roll_range.1).toNat := by omega
  have hm : seed % (cfg.roll_range.2 + 1 - cfg.roll_range.1).toNat
      < (cfg.roll_range.2 + 1 - cfg.roll_range.1).toNat := Nat.mod_lt _ hk
  refine ⟨?_, ?_, ?_, rfl, ?_⟩
  · unfold gen_range; omega
  · unfold gen_range; omega
  · intro n h1 h2
    refine ⟨(n - cfg.roll_range.1).toNat, ?_⟩
    unfold gen_range
    have hlt : (n - cfg.roll_range.1).toNat
        < (cfg.roll_range.2 + 1 - cfg.roll_range.1).toNat := by omega
    rw [Nat.mod_eq_of_lt hlt]
    omega
  · intro p sends hps hcon
    rw [hcon] at hps
    have hps2 :
        ((if cfg.deadly_rolls.contains
              (gen_range cfg.roll_range.1 (cfg.roll_range.2 + 1) seed)
          then Penalty.Reset else Penalty.None),
         on_death_sends cfg u (gen_range cfg.roll_range.1 (cfg.roll_range.2 + 1) seed))
          = (Penalty.Rewind, sends) := Option.some.inj hps
    have hp := congrArg Prod.fst hps2
    cases hc : cfg.deadly_rolls.contains
        (gen_range cfg.roll_range.1 (cfg.roll_range.2 + 1) seed) <;>
      rw [hc] at hp <;> simp at hp

/-- C1 witness: `C1_on_death_roll` instantiated at `baseCfg`
(`roll_range = [1, 6]`, `deadly_rolls = [1]`) with RNG state 2. -/
theorem C1_witness :
    baseCfg.roll_range.1 ≤ gen_range baseCfg.roll_range.1 (baseCfg.roll_range.2 + 1) 2 ∧
    gen_range baseCfg.roll_range.1 (baseCfg.roll_range.2 + 1) 2 ≤ baseCfg.roll_range.2 ∧
    (∀ n : Int, baseCfg.roll_range.1 ≤ n → n ≤ baseCfg.roll_range.2 →
       ∃ s : Nat, gen_range baseCfg.roll_range.1 (baseCfg.roll_range.2 + 1) s = n) ∧
    on_death baseCfg ("Alex") true 2
      = Option.some
          ((if baseCfg.deadly_rolls.contains
                (gen_range baseCfg.roll_range.1 (baseCfg.roll_range.2 + 1) 2)
            then Penalty.Reset else Penalty.None),
           on_death_sends baseCfg ("Alex")
             (gen_range baseCfg.roll_range.1 (baseCfg.roll_range.2 + 1) 2)) ∧
    (∀ (p : Penalty) (sends : List String),
       on_death baseCfg ("Alex") true 2 = Option.some (p, sends) → p ≠ Penalty.Rewind) :=
  C1_on_death_roll baseCfg ("Alex") 2 (by decide)

/-- Claim C3: when an advance fires (`checkpoint_minutes ≥ 1`, elapsed
time `> 8`s), `update_playtime` reports a checkpoint due iff the
spec's bucket function increased across the advance, with
`interval = checkpoint_minutes * 60` over whole seconds of playtime. -/
theorem C3_checkpoint_predicate (cfg : Config) (t0 now pt : Nat)
    (hcm : 1 ≤ cfg.checkpoint_minutes) (hadv : 8 * nanos < now - t0) :
    ∃ due : Bool,
      update_playtime cfg (Option.some t0) now pt
        = Option.some (Option.some now, pt + (now - t0), due) ∧
      (due = true ↔
        bucketSpec (cfg.checkpoint_minutes * 60) ((pt + (now - t0)) / nanos)
          > bucketSpec (cfg.checkpoint_minutes * 60) (pt / nanos)) := by
  refine ⟨_, update_playtime_adv cfg t0 now pt (by omega) hadv, ?_⟩
  simp [backup_count, bucketSpec]

/-- C3 witness: `C3_checkpoint_predicate` instantiated at `baseCfg`
with a 9-second advance from zero playtime. -/
theorem C3_witness :
    ∃ due : Bool,
      update_playtime baseCfg (Option.some 0) (9 * nanos) 0
        = Option.some (Option.some (9 * nanos), 0 + (9 * nanos - 0), due) ∧
      (due = true ↔
        bucketSpec (baseCfg.checkpoint_minutes * 60) ((0 + (9 * nanos - 0)) / nanos)
          > bucketSpec (baseCfg.checkpoint_minutes * 60) (0 / nanos)) :=
  C3_checkpoint_predicate baseCfg 0 (9 * nanos) 0 (by decide) (by decide)

/-- Claim C5: from the initial session state (empty online set, no
online-since timestamp), every processed trace preserves the invariant
`online_since is set ↔ online set non-empty`; playtime never advances
on a line processed with an empty online set; and each advance adds
exactly the elapsed time since the last flush (when `> 8`s) while
resetting online-since to `now`, with no change at all when the
elapsed time is `≤ 8`s. -/
theorem C5_session_invariant (cfg : Config) (death_msg : List (List Char)) :
    (∀ (p0 : Nat) (trace : List (Nat × List Char)) (s : SessState),
       runTrace cfg death_msg trace (init_state p0) = Option.some s →
       (s.since.isSome = true ↔ s.online ≠ ∅)) ∧
    (∀ (s s2 : SessState) (now : Nat) (line : List Char),
       sessInv s → s.online = ∅ →
       line_step cfg death_msg now line s = Option.some s2 →
       s2.playtime = s.playtime) ∧
    (∀ (t0 now pt : Nat), 1 ≤ cfg.checkpoint_minutes → 8 * nanos < now - t0 →
       ∃ due : Bool, update_playtime cfg (Option.some t0) now pt
         = Option.some (Option.some now, pt + (now - t0), due)) ∧
    (∀ (t0 now pt : Nat), ¬ (8 * nanos < now - t0) →
       update_playtime cfg (Option.some t0) now pt
         = Option.some (Option.some t0, pt, false)) := by
  refine ⟨?_, ?_, ?_, ?_⟩
  · intro p0 trace s h
    exact runTrace_inv cfg death_msg trace (init_state p0) s
      (by simp [sessInv, init_state]) h
  · intro s s2 now line hs hemp hstep
    cases hsince : s.since with
    | some t =>
      exact absurd (hs.mp (by rw [hsince]; rfl)) (by simp [hemp])
    | none =>
      unfold line_step at hstep
      rw [hsince, update_playtime_offline] at hstep
      simp only [Option.some.injEq] at hstep
      rw [← hstep, presence_step_playtime]
  · intro t0 now pt hcm hadv
    exact ⟨_, update_playtime_adv cfg t0 now pt (by omega) hadv⟩
  · intro t0 now pt hadv
    exact update_playtime_noadv cfg t0 now pt hadv

/-- C5 witness: the invariant half of `C5_session_invariant` at the
empty trace, and the no-advance half at a 5-second elapsed time. -/
theorem C5_witness :
    ((init_state 0).since.isSome = true ↔ (init_state 0).online ≠ ∅) ∧
    update_playtime baseCfg (Option.some 0) (5 * nanos) 7
      = Option.some (Option.some 0, 7, false) :=
  ⟨(C5_session_invariant baseCfg []).1 0 [] (init_state 0) rfl,
   (C5_session_invariant baseCfg []).2.2.2 0 (5 * nanos) 7 (by decide)⟩
